import Mathlib

/-!
# Verification of the police-stops analysis (`calculations.py`)

Shallow embedding of the functions in `src/calculations.py` (pandas
DataFrames become lists of typed rows; missing values (`NaN`) produced by
left joins become `Option`; floating-point rates become `ℚ`).  The
embedded functions keep the source names.  Theorems settle the frozen
claims about the Veil-of-Darkness pipeline, the rate comparator, the
solar time calculator and the hit-rate aggregator.
-/

namespace PoliceStops

/-- A clock time of day, as produced by `datetime.time`: the field bounds
`hour < 24`, `minute < 60`, `second < 60` are guaranteed by the Python
type's constructor. -/
structure Time where
  hour : Fin 24
  minute : Fin 60
  second : Fin 60
  deriving DecidableEq, Repr

/-- Total seconds since midnight; `datetime.time` comparison is
lexicographic on (hour, minute, second), which coincides with comparison
of this quantity. -/
def Time.toSec (t : Time) : Nat :=
  t.hour.val * 3600 + t.minute.val * 60 + t.second.val

/-- `time.hour * 60 + time.minute`: minutes since midnight with the
seconds dropped (truncated, not rounded), as computed throughout
`calculations.py`. -/
def Time.minuteOfDay (t : Time) : Nat :=
  t.hour.val * 60 + t.minute.val

/-- One stop record, with the fields the Veil-of-Darkness pipeline reads:
`date` (an opaque join key), `time` (already normalized to a time value;
the `strptime` fallback in `get_veil_of_darkness_observations` only
converts a `HH:MM:SS` string into such a value), and the demographic
group label (`subject_race`). -/
structure StopRow where
  date : String
  time : Time
  group : String
  deriving DecidableEq, Repr

/-- One row of the solar-times table (`calc_sunset_times` output schema):
`date`, `sunset`, `dusk`, `sunset_minute`, `dusk_minute`.  The minute
fields are integers; claims quantifying over "every solar-times table"
let them be arbitrary. -/
structure SolarRow where
  date : String
  sunset : Time
  dusk : Time
  sunset_minute : Int
  dusk_minute : Int
  deriving DecidableEq, Repr

/-- A merged and augmented row of `get_veil_of_darkness_observations`:
the stop fields, the joined solar fields (`none` when the left join
found no matching date, i.e. pandas `NaN`), and the derived columns
`minute`, `minutes_after_dark`, `is_dark`. -/
structure MRow where
  date : String
  time : Time
  group : String
  solar : Option SolarRow
  minute : Int
  minutes_after_dark : Option Int
  is_dark : Nat
  deriving DecidableEq, Repr

/-- Build one merged row and its derived columns, following lines
292–294 of `calculations.py`:
`minute = time.hour * 60 + time.minute`;
`minutes_after_dark = minute - dusk_minute` (NaN when the join missed);
`is_dark = int(minute > dusk_minute)` (a NaN comparison is `False`, so a
missed join yields `is_dark = 0`). -/
def mkMRow (s : StopRow) (o : Option SolarRow) : MRow :=
  let m : Int := (s.time.minuteOfDay : Int)
  { date := s.date
    time := s.time
    group := s.group
    solar := o
    minute := m
    minutes_after_dark := o.map (fun r => m - r.dusk_minute)
    is_dark := match o with
      | some r => if r.dusk_minute < m then 1 else 0
      | none => 0 }

/-- The merge partners of one stop row under
`merge(sunset_times, how='left', on=date_col)`: every solar row with
the same date (pandas duplicates the left row on duplicate keys), or a
single all-NaN pairing when no solar row matches. -/
def joinRows (s : StopRow) (solar : List SolarRow) : List MRow :=
  if solar.filter (fun r => r.date == s.date) = [] then [mkMRow s none]
  else (solar.filter (fun r => r.date == s.date)).map (fun r => mkMRow s (some r))

/-- `stops_df.merge(sunset_times, how='left', on=date_col)` followed by
the derived-column assignments of lines 292–294. -/
def augmentedMerge (stops : List StopRow) (solar : List SolarRow) : List MRow :=
  stops.flatMap (fun s => joinRows s solar)

/-- The `dusk_minute` column of the merged table, with the missing
(NaN) entries skipped — pandas `.min()`/`.max()` skip NaN. -/
def duskList (l : List MRow) : List Int :=
  l.filterMap (fun r => r.solar.map (fun x => x.dusk_minute))

/-- `merged['dusk_minute'].min()`: NaN-skipping minimum, `none` (NaN)
when every entry is missing. -/
def minDusk (l : List MRow) : Option Int :=
  match duskList l with
  | [] => none
  | x :: xs => some (xs.foldl min x)

/-- `merged['dusk_minute'].max()`: NaN-skipping maximum. -/
def maxDusk (l : List MRow) : Option Int :=
  match duskList l with
  | [] => none
  | x :: xs => some (xs.foldl max x)

/-- The global intertwilight-window filter of line 298:
`(minute >= min_dusk_minute) & (minute <= max_dusk_minute)`.  When a
bound is NaN (`none`) the pandas comparison is `False` and nothing
passes. -/
def windowKeep (mn mx : Option Int) (r : MRow) : Bool :=
  match mn, mx with
  | some a, some b => a ≤ r.minute && r.minute ≤ b
  | _, _ => false

/-- The per-date ambiguous-window exclusion of lines 300–301:
`~((minute > sunset_minute) & (minute < dusk_minute))`.  When the solar
fields are NaN both comparisons are `False`, so the row is kept. -/
def ambiguousKeep (r : MRow) : Bool :=
  match r.solar with
  | some s => !(s.sunset_minute < r.minute && r.minute < s.dusk_minute)
  | none => true

/-- `get_veil_of_darkness_observations` (lines 285–302): left-join the
stops with the solar-times table, derive `minute`,
`minutes_after_dark`, `is_dark`, compute the global window bounds, keep
the intertwilight window, then drop the per-date ambiguous
sunset-to-dusk period. -/
def get_veil_of_darkness_observations (stops : List StopRow)
    (solar : List SolarRow) : List MRow :=
  ((augmentedMerge stops solar).filter
      (windowKeep (minDusk (augmentedMerge stops solar))
        (maxDusk (augmentedMerge stops solar)))).filter
    ambiguousKeep

/-- Arithmetic mean of a list of rationals (`np.mean`); the floating
point of the source is modelled exactly by `ℚ`. -/
def meanQ (l : List ℚ) : ℚ :=
  l.sum / (l.length : ℚ)

/-- `np.mean([float(i) for i in x])` over a column that may contain
missing values: `float(NaN)` is NaN and poisons the mean, and the mean
of an empty list is NaN; both become `none`. -/
def meanOpt (l : List (Option ℚ)) : Option ℚ :=
  if l.isEmpty then none
  else if l.all (fun o => o.isSome) then some (meanQ (l.filterMap id)) else none

/-- The inclusive time-window filter of line 329.  `start_time` and
`end_time` arrive as `HH:MM` strings, so `strptime` yields times with
`second = 0`; `datetime.time` comparison is lexicographic on (hour,
minute, second), i.e. comparison of seconds-since-midnight. -/
def vodTimeFilter (vod : List MRow) (sh : Fin 24) (sm : Fin 60)
    (eh : Fin 24) (em : Fin 60) : List MRow :=
  vod.filter (fun r =>
    (Time.mk sh sm 0).toSec ≤ r.time.toSec &&
      r.time.toSec ≤ (Time.mk eh em 0).toSec)

/-- One `is_dark` partition of the time-filtered observations. -/
def vodPartition (vod : List MRow) (sh : Fin 24) (sm : Fin 60)
    (eh : Fin 24) (em : Fin 60) (d : Nat) : List MRow :=
  (vodTimeFilter vod sh sm eh em).filter (fun r => r.is_dark == d)

/-- `calc_vod_rate` (lines 322–342): after the inclusive time-window
filter, counts per `is_dark` partition and per (`is_dark`, group) cell
give `prop = race_count / total_count`, pivoted with `is_dark` as the
row key.  The pivot is represented as an association list keyed by the
`is_dark` values present in the filtered data; a (`is_dark`, group)
cell with no record is NaN in the pandas pivot and is simply absent
here.  The sort order pandas applies to the pivot axes is not modelled
(no claim under verification depends on row or column order). -/
def calc_vod_rate (vod : List MRow) (sh : Fin 24) (sm : Fin 60)
    (eh : Fin 24) (em : Fin 60) : List (Nat × List (String × ℚ)) :=
  (((vodTimeFilter vod sh sm eh em).map (fun r => r.is_dark)).dedup).map (fun d =>
    (d, ((vodPartition vod sh sm eh em d).map (fun r => r.group)).dedup.map
      (fun g =>
        (g, ((vodPartition vod sh sm eh em d).filter
              (fun r => r.group == g)).length /
            ((vodPartition vod sh sm eh em d).length : ℚ)))))

/-- A stop record as read by `calc_hit_rates`: the grouping key (the
values of `groupby_cols`, in order), the search indicator and the
contraband indicator.  The indicator columns may hold missing values
(`none` = NaN); pandas `NaN == True` is `False`, and `float(True)` is
`1.0`, so the contraband indicator is kept as an optional rational. -/
structure SRow where
  key : List String
  search : Option Bool
  contraband : Option ℚ
  deriving DecidableEq, Repr

/-- `calc_hit_rates` (lines 168–172): restrict to
`stops_df[search_col] == True`, group the restriction by the key,
aggregate the contraband column with
`np.mean([float(i) for i in x])`, and `dropna` the groups whose mean is
NaN. -/
def calc_hit_rates (stops : List SRow) : List (List String × ℚ) :=
  let searched := stops.filter (fun r => r.search == some true)
  let keys := (searched.map (fun r => r.key)).dedup
  keys.filterMap (fun k =>
    (meanOpt ((searched.filter (fun r => r.key == k)).map
      (fun r => r.contraband))).map (fun m => (k, m)))

/-- One row of a rate table fed to `compare_rates`: the values of the
index columns (all columns except the group and rate columns), the
group value, and the rate. -/
structure RateRow where
  idx : List String
  group : String
  rate : ℚ
  deriving DecidableEq, Repr

/-- One output row of `compare_rates`: the index-column values, the
melted minority value, and the majority and minority rate cells.
`none` models a NaN cell. -/
structure CompRow where
  idx : List String
  minority_group : String
  majorityRate : Option ℚ
  minorityRate : Option ℚ
  deriving DecidableEq, Repr

/-- One pivot cell: `pivot_table(..., fill_value=0)` aggregates
duplicate (index, group) pairs with the default `mean` and fills the
missing cells of the observed-index × observed-group grid with 0. -/
def cellMean (rates : List RateRow) (k : List String) (g : String) : ℚ :=
  let m := rates.filter (fun r => r.idx == k && r.group == g)
  if m.isEmpty then 0 else meanQ (m.map (fun r => r.rate))

/-- `compare_rates` (lines 209–226).  `nidx` is the number of index
columns (`len(index_cols)`, fixed by the rate table's schema).  Pandas
semantics of the era the source targets (the `.agg({name: fn})`
renaming idiom used throughout the file was removed in pandas 1.0, and
`melt` only began raising `KeyError` on absent `id_vars`/`value_vars`
in 0.25): `.melt` selects `frame.loc[:, id_vars + value_vars]`, and a
label absent from the pivot's columns reindexes to a column of NaN.
Hence a group value that never occurs in the data has no pivot column
and melts to NaN, and when `nidx = 0` `pivot_table` (with `index=[]`)
never unstacks — the group values stay in the row index, the only
column is the rate column, and every melt lookup misses.  The final
sort by index columns is not modelled (no claim under verification
depends on row order), and rate/column names are positional here. -/
def compare_rates (nidx : Nat) (rates : List RateRow) (majority : String)
    (minorities : List String) : List CompRow :=
  let groups := (rates.map (fun r => r.group)).dedup
  if nidx = 0 then
    minorities.flatMap (fun v => groups.map (fun _ =>
      { idx := [], minority_group := v,
        majorityRate := none, minorityRate := none }))
  else
    let keys := (rates.map (fun r => r.idx)).dedup
    minorities.flatMap (fun v => keys.map (fun k =>
      { idx := k, minority_group := v,
        majorityRate :=
          if groups.contains majority then some (cellMean rates k majority)
          else none,
        minorityRate :=
          if groups.contains v then some (cellMean rates k v) else none }))

/-- The failure `calc_sunset_times` surfaces for a bad location: the
`ValueError`/`TypeError` raised by `float()` on a non-numeric
coordinate, or by astral's timezone setter on an identifier not in
`pytz.all_timezones`. -/
inductive LocError where
  | invalidLocation
  deriving DecidableEq, Repr

/-- One row of the sunset-times table (line 259–264): sunset and dusk
for the date from the astronomical collaborator `sun`, and their
minutes-since-midnight via `hour * 60 + minute` (seconds truncated). -/
def mkSolarRow (sun : String → Time × Time) (d : String) : SolarRow :=
  { date := d
    sunset := (sun d).1
    dusk := (sun d).2
    sunset_minute := ((sun d).1.minuteOfDay : Int)
    dusk_minute := ((sun d).2.minuteOfDay : Int) }

/-- The table body of `calc_sunset_times`: one row per unique date of
the stops (`stops_df[date_col].unique()`). -/
def sunsetTable (sun : String → Time × Time) (stops : List StopRow) :
    List SolarRow :=
  ((stops.map (fun r => r.date)).dedup).map (mkSolarRow sun)

/-- `calc_sunset_times` (lines 252–265).  `lat`/`lon` are given as the
result of the fallible `float()` coercion (`none` = the coercion
raises); `allTimezones` embeds `pytz.all_timezones`, against which
astral's timezone setter checks its argument; `sun` is the external
astronomical collaborator (astral's `Location.sun`), a black box taking
latitude, longitude, timezone and date.  The checks happen in source
order: latitude, then longitude, then timezone; any failure propagates
and no table is produced. -/
def calc_sunset_times (allTimezones : List String)
    (sun : ℚ → ℚ → String → String → Time × Time) (stops : List StopRow)
    (lat lon : Option ℚ) (tz : String) : Except LocError (List SolarRow) :=
  match lat with
  | none => .error .invalidLocation
  | some la =>
    match lon with
    | none => .error .invalidLocation
    | some lo =>
      if allTimezones.contains tz then .ok (sunsetTable (sun la lo tz) stops)
      else .error .invalidLocation

/-- The hit rate as the spec words it (§8, glossary): among the records
of group `k` that were searched, the mean of the contraband indicator.
Stated as a single restricted mean, independent of the grouped
pipeline, for the refinement proof. -/
def hitRateSpec (stops : List SRow) (k : List String) : Option ℚ :=
  meanOpt ((stops.filter
    (fun r => r.search == some true && r.key == k)).map (fun r => r.contraband))

/-- Sample stop records: one on date "A" at 18:00, one on date "B" at
18:00. -/
def sampleStops : List StopRow :=
  [⟨"A", ⟨18, 0, 0⟩, "x"⟩, ⟨"B", ⟨18, 0, 0⟩, "y"⟩]

/-- Sample solar table covering only date "A": sunset 17:50 (minute
1070), dusk 18:00 (minute 1080).  Date "B" has no row. -/
def sampleSolar : List SolarRow :=
  [⟨"A", ⟨17, 50, 0⟩, ⟨18, 0, 0⟩, 1070, 1080⟩]

/-- The merged row for the date-"A" stop. -/
def sampleRowA : MRow :=
  mkMRow ⟨"A", ⟨18, 0, 0⟩, "x"⟩ (some ⟨"A", ⟨17, 50, 0⟩, ⟨18, 0, 0⟩, 1070, 1080⟩)

/-- The merged row for the date-"B" stop, whose left join found no
solar row. -/
def sampleRowB : MRow :=
  mkMRow ⟨"B", ⟨18, 0, 0⟩, "y"⟩ none

/-- Sample VoD observations: two dark stops (groups "b" and "w") and
one daylight stop, all between 17:00 and 19:00. -/
def vodSample : List MRow :=
  [⟨"A", ⟨18, 0, 0⟩, "b", none, 1080, none, 1⟩,
   ⟨"A", ⟨18, 30, 0⟩, "w", none, 1110, none, 1⟩,
   ⟨"A", ⟨17, 30, 0⟩, "w", none, 1050, none, 0⟩]

/-- Sample records for the hit-rate aggregator: one searched stop of
group "g" with contraband, one unsearched stop of group "g", and one
stop of group "h" with a missing search indicator. -/
def hitSample : List SRow :=
  [⟨["g"], some true, some 1⟩, ⟨["g"], some false, some 0⟩,
   ⟨["h"], none, some 1⟩]

/-- A sample astronomical collaborator: constant sunset 17:50:30 and
dusk 18:00:45 (nonzero seconds, so the witness exercises the seconds
truncation). -/
def sampleSun (_la _lo : ℚ) (_tz _d : String) : Time × Time :=
  (⟨17, 50, 30⟩, ⟨18, 0, 45⟩)

/-- A sample rate table over one index column (district "d1") with
groups "white" and "black" only. -/
def rateSample : List RateRow :=
  [⟨["d1"], "white", 1/2⟩, ⟨["d1"], "black", 1/4⟩]

/-! ## Helper lemmas -/

theorem foldl_min_le_init (xs : List Int) (a : Int) : xs.foldl min a ≤ a := by
  induction xs generalizing a with
  | nil => simp
  | cons y ys ih =>
    calc (y :: ys).foldl min a = ys.foldl min (min a y) := rfl
    _ ≤ min a y := ih _
    _ ≤ a := min_le_left _ _

theorem foldl_min_le_mem (xs : List Int) (a x : Int) (hx : x ∈ xs) :
    xs.foldl min a ≤ x := by
  induction xs generalizing a with
  | nil => cases hx
  | cons y ys ih =>
    rcases List.mem_cons.mp hx with h | h
    · subst h
      calc (x :: ys).foldl min a = ys.foldl min (min a x) := rfl
      _ ≤ min a x := foldl_min_le_init _ _
      _ ≤ x := min_le_right _ _
    · exact ih _ h

theorem init_le_foldl_max (xs : List Int) (a : Int) : a ≤ xs.foldl max a := by
  induction xs generalizing a with
  | nil => simp
  | cons y ys ih =>
    calc a ≤ max a y := le_max_left _ _
    _ ≤ ys.foldl max (max a y) := ih _
    _ = (y :: ys).foldl max a := rfl

theorem mem_le_foldl_max (xs : List Int) (a x : Int) (hx : x ∈ xs) :
    x ≤ xs.foldl max a := by
  induction xs generalizing a with
  | nil => cases hx
  | cons y ys ih =>
    rcases List.mem_cons.mp hx with h | h
    · subst h
      calc x ≤ max a x := le_max_right _ _
      _ ≤ ys.foldl max (max a x) := init_le_foldl_max _ _
      _ = (x :: ys).foldl max a := rfl
    · exact ih _ h

theorem minDusk_le_of_mem (l : List MRow) (x : Int) (hx : x ∈ duskList l) :
    ∃ mn, minDusk l = some mn ∧ mn ≤ x := by
  unfold minDusk
  cases h : duskList l with
  | nil => rw [h] at hx; cases hx
  | cons y ys =>
    rw [h] at hx
    refine ⟨ys.foldl min y, rfl, ?_⟩
    rcases List.mem_cons.mp hx with h2 | h2
    · subst h2; exact foldl_min_le_init _ _
    · exact foldl_min_le_mem _ _ _ h2

theorem le_maxDusk_of_mem (l : List MRow) (x : Int) (hx : x ∈ duskList l) :
    ∃ mx, maxDusk l = some mx ∧ x ≤ mx := by
  unfold maxDusk
  cases h : duskList l with
  | nil => rw [h] at hx; cases hx
  | cons y ys =>
    rw [h] at hx
    refine ⟨ys.foldl max y, rfl, ?_⟩
    rcases List.mem_cons.mp hx with h2 | h2
    · subst h2; exact init_le_foldl_max _ _
    · exact mem_le_foldl_max _ _ _ h2

theorem mem_joinRows (s : StopRow) (solar : List SolarRow) (r : MRow)
    (h : r ∈ joinRows s solar) : ∃ o, r = mkMRow s o := by
  unfold joinRows at h
  split at h
  · exact ⟨none, List.mem_singleton.mp h⟩
  · obtain ⟨x, _, hx⟩ := List.mem_map.mp h
    exact ⟨some x, hx.symm⟩

theorem mem_augmentedMerge (stops : List StopRow) (solar : List SolarRow)
    (r : MRow) (h : r ∈ augmentedMerge stops solar) :
    ∃ s ∈ stops, ∃ o, r = mkMRow s o := by
  obtain ⟨s, hs, hr⟩ := List.mem_flatMap.mp h
  exact ⟨s, hs, mem_joinRows s solar r hr⟩

theorem mem_duskList_of_solar (l : List MRow) (r : MRow) (s : SolarRow)
    (hr : r ∈ l) (hs : r.solar = some s) : s.dusk_minute ∈ duskList l := by
  unfold duskList
  exact List.mem_filterMap.mpr ⟨r, hr, by rw [hs]; rfl⟩

/-! ## Claims about the Twilight Filter -/

/-- C1: every record in the output of
`get_veil_of_darkness_observations` has its `minute` within the global
intertwilight window `[min_dusk_minute, max_dusk_minute]` (inclusive),
and no output record has `minute` strictly between its own date's
`sunset_minute` and `dusk_minute`. -/
theorem vod_window_invariant (stops : List StopRow) (solar : List SolarRow)
    (r : MRow) (hr : r ∈ get_veil_of_darkness_observations stops solar) :
    (∃ mn mx, minDusk (augmentedMerge stops solar) = some mn ∧
        maxDusk (augmentedMerge stops solar) = some mx ∧
        mn ≤ r.minute ∧ r.minute ≤ mx) ∧
      ∀ s, r.solar = some s →
        ¬(s.sunset_minute < r.minute ∧ r.minute < s.dusk_minute) := by
  unfold get_veil_of_darkness_observations at hr
  rw [List.mem_filter] at hr
  obtain ⟨hw, ha⟩ := hr
  rw [List.mem_filter] at hw
  obtain ⟨_, hwk⟩ := hw
  constructor
  · cases hmn : minDusk (augmentedMerge stops solar) with
    | none => rw [hmn] at hwk; simp [windowKeep] at hwk
    | some mn =>
      cases hmx : maxDusk (augmentedMerge stops solar) with
      | none => rw [hmn, hmx] at hwk; simp [windowKeep] at hwk
      | some mx =>
        rw [hmn, hmx] at hwk
        simp only [windowKeep, Bool.and_eq_true, decide_eq_true_eq] at hwk
        exact ⟨mn, mx, rfl, rfl, hwk.1, hwk.2⟩
  · intro s hs hcontra
    unfold ambiguousKeep at ha
    rw [hs] at ha
    simp only [Bool.not_eq_eq_eq_not, Bool.not_true, Bool.and_eq_false_imp,
      decide_eq_true_eq, decide_eq_false_iff_not] at ha
    exact ha hcontra.1 hcontra.2

/-- Witness for C1 at a concrete input: the 18:00 stop on date "A". -/
theorem vod_window_invariant_witness :
    (∃ mn mx, minDusk (augmentedMerge sampleStops sampleSolar) = some mn ∧
        maxDusk (augmentedMerge sampleStops sampleSolar) = some mx ∧
        mn ≤ sampleRowA.minute ∧ sampleRowA.minute ≤ mx) ∧
      ∀ s, sampleRowA.solar = some s →
        ¬(s.sunset_minute < sampleRowA.minute ∧
          sampleRowA.minute < s.dusk_minute) :=
  vod_window_invariant sampleStops sampleSolar sampleRowA (by decide)

/-- C2: the intertwilight window bounds are the minimum and maximum of
`dusk_minute` over the **entire** merged record set: membership in the
output is join membership plus the global-window test with those
bounds plus the ambiguous-window test, and the bounds bound the
`dusk_minute` of every merged record — including any record the
later per-date ambiguous exclusion removes, so the bounds are
unaffected by that exclusion. -/
theorem vod_bounds_global (stops : List StopRow) (solar : List SolarRow) :
    (∀ r, r ∈ get_veil_of_darkness_observations stops solar ↔
      (r ∈ augmentedMerge stops solar ∧
        windowKeep (minDusk (augmentedMerge stops solar))
          (maxDusk (augmentedMerge stops solar)) r = true ∧
        ambiguousKeep r = true)) ∧
      ∀ r ∈ augmentedMerge stops solar, ∀ s, r.solar = some s →
        ∃ mn mx, minDusk (augmentedMerge stops solar) = some mn ∧
          maxDusk (augmentedMerge stops solar) = some mx ∧
          mn ≤ s.dusk_minute ∧ s.dusk_minute ≤ mx := by
  constructor
  · intro r
    unfold get_veil_of_darkness_observations
    rw [List.mem_filter, List.mem_filter]
    tauto
  · intro r hr s hs
    have hd := mem_duskList_of_solar (augmentedMerge stops solar) r s hr hs
    obtain ⟨mn, hmn, h1⟩ := minDusk_le_of_mem _ _ hd
    obtain ⟨mx, hmx, h2⟩ := le_maxDusk_of_mem _ _ hd
    exact ⟨mn, mx, hmn, hmx, h1, h2⟩

/-- Witness for C2 at a concrete input: on the sample data the bounds
exist and bound the dusk minute 1080 of the date-"A" record. -/
theorem vod_bounds_global_witness :
    ∃ mn mx, minDusk (augmentedMerge sampleStops sampleSolar) = some mn ∧
      maxDusk (augmentedMerge sampleStops sampleSolar) = some mx ∧
      mn ≤ (1080 : Int) ∧ (1080 : Int) ≤ mx :=
  (vod_bounds_global sampleStops sampleSolar).2 sampleRowA (by decide)
    ⟨"A", ⟨17, 50, 0⟩, ⟨18, 0, 0⟩, 1070, 1080⟩ (by decide)

/-- C3: for every record the Twilight Filter processes (every merged
row), `minute` is the stop time's `hour * 60 + minute` (seconds
dropped), `minutes_after_dark = minute - dusk_minute`, and `is_dark`
is 1 exactly when `minute > dusk_minute` — in particular a record with
`minute` equal to its `dusk_minute` has `is_dark = 0`. -/
theorem vod_derived_fields (stops : List StopRow) (solar : List SolarRow)
    (r : MRow) (hr : r ∈ augmentedMerge stops solar) :
    r.minute = (r.time.minuteOfDay : Int) ∧
      r.minutes_after_dark = r.solar.map (fun s => r.minute - s.dusk_minute) ∧
      (∀ s, r.solar = some s →
        r.is_dark = if s.dusk_minute < r.minute then 1 else 0) ∧
      ∀ s, r.solar = some s → r.minute = s.dusk_minute → r.is_dark = 0 := by
  obtain ⟨s, _, o, rfl⟩ := mem_augmentedMerge stops solar r hr
  refine ⟨rfl, rfl, ?_, ?_⟩
  · intro w hw
    cases o with
    | none => cases hw
    | some u => cases hw; rfl
  · intro w hw he
    cases o with
    | none => cases hw
    | some u =>
      cases hw
      simp only [mkMRow] at he ⊢
      rw [if_neg]
      rw [he]
      exact lt_irrefl _

/-- Witness for C3 at a concrete input: the derived fields of the
date-"A" sample row, whose `minute` equals its `dusk_minute`. -/
theorem vod_derived_fields_witness :
    sampleRowA.minute = (sampleRowA.time.minuteOfDay : Int) ∧
      sampleRowA.minutes_after_dark =
        sampleRowA.solar.map (fun s => sampleRowA.minute - s.dusk_minute) ∧
      (∀ s, sampleRowA.solar = some s →
        sampleRowA.is_dark = if s.dusk_minute < sampleRowA.minute then 1 else 0) ∧
      ∀ s, sampleRowA.solar = some s →
        sampleRowA.minute = s.dusk_minute → sampleRowA.is_dark = 0 :=
  vod_derived_fields sampleStops sampleSolar sampleRowA (by decide)

/-- Counterexample to C10 as stated: on the sample data the date-"B"
stop has no matching solar row, yet it is **not** excluded — the
output contains a record with missing (`NaN`) `sunset_minute` and
`dusk_minute`, because the global window bounds come from the matched
records and the ambiguous-window test keeps NaN rows. -/
theorem vod_missing_solar_not_excluded :
    ¬ ∀ r ∈ get_veil_of_darkness_observations sampleStops sampleSolar,
      r.solar ≠ none := by
  intro h
  exact h sampleRowB (by decide) (by decide)

/-- C10 (amended): a stop record whose date has no solar row survives
the left join with missing sunset/dusk fields; the per-date
ambiguous-window exclusion never removes it (the NaN comparisons are
false), so it appears in the output exactly when it passes the global
intertwilight-window filter. -/
theorem vod_missing_solar_membership (stops : List StopRow)
    (solar : List SolarRow) (r : MRow) (hm : r ∈ augmentedMerge stops solar)
    (hn : r.solar = none) :
    r ∈ get_veil_of_darkness_observations stops solar ↔
      windowKeep (minDusk (augmentedMerge stops solar))
        (maxDusk (augmentedMerge stops solar)) r = true := by
  unfold get_veil_of_darkness_observations
  rw [List.mem_filter, List.mem_filter]
  constructor
  · intro h
    exact h.1.2
  · intro h
    refine ⟨⟨hm, h⟩, ?_⟩
    unfold ambiguousKeep
    rw [hn]

/-- Witness for C10 (amended) at a concrete input: the date-"B" sample
row is in the merge with missing solar fields, and its membership in
the output reduces to the global-window test (which it passes). -/
theorem vod_missing_solar_membership_witness :
    sampleRowB ∈ get_veil_of_darkness_observations sampleStops sampleSolar ↔
      windowKeep (minDusk (augmentedMerge sampleStops sampleSolar))
        (maxDusk (augmentedMerge sampleStops sampleSolar)) sampleRowB = true :=
  vod_missing_solar_membership sampleStops sampleSolar sampleRowB
    (by decide) (by decide)

/-! ## Claims about the VoD rate estimator -/

theorem partition_props_sum_one (part : List MRow) (hpart : part ≠ []) :
    ((part.map (fun r => r.group)).dedup.map (fun g =>
      ((part.filter (fun r => r.group == g)).length : ℚ) /
        (part.length : ℚ))).sum = 1 := by
  have hlen : ∀ g : String, (part.filter (fun r => r.group == g)).length =
      (part.map (fun r => r.group)).count g := by
    intro g
    rw [List.count, List.countP_map, List.countP_eq_length_filter]
    rfl
  have hT : ((part.length : ℚ)) ≠ 0 := by
    have h0 : part.length ≠ 0 := by simpa using hpart
    exact Nat.cast_ne_zero.mpr h0
  calc ((part.map (fun r => r.group)).dedup.map (fun g =>
        ((part.filter (fun r => r.group == g)).length : ℚ) /
          (part.length : ℚ))).sum
      = ((part.map (fun r => r.group)).dedup.map (fun g =>
        (((part.map (fun r => r.group)).count g : ℚ)) *
          ((part.length : ℚ))⁻¹)).sum := by
        simp only [hlen, div_eq_mul_inv]
    _ = ((part.map (fun r => r.group)).dedup.map (fun g =>
        (((part.map (fun r => r.group)).count g : ℚ)))).sum *
          ((part.length : ℚ))⁻¹ :=
        List.sum_map_mul_right _ _ _
    _ = (((part.map (fun r => r.group)).dedup.map (fun g =>
        ((part.map (fun r => r.group)).count g))).sum : ℚ) *
          ((part.length : ℚ))⁻¹ := by
        rw [Nat.cast_list_sum, List.map_map]
        rfl
    _ = ((part.map (fun r => r.group)).length : ℚ) * ((part.length : ℚ))⁻¹ := by
        rw [List.sum_map_count_dedup_eq_length]
    _ = 1 := by
        rw [List.length_map]
        exact mul_inv_cancel₀ hT

/-- C5: for every `is_dark` partition left non-empty by the time-window
filter, `calc_vod_rate` has a row assigning each distinct group value
the proportion `group_count / partition_total_count`, and those
proportions sum to 1 (exactly, in the `ℚ` model of the source's
floating point). -/
theorem vod_rate_partition_proportions (vod : List MRow) (sh : Fin 24)
    (sm : Fin 60) (eh : Fin 24) (em : Fin 60) (d : Nat)
    (hne : vodPartition vod sh sm eh em d ≠ []) :
    ∃ L, (d, L) ∈ calc_vod_rate vod sh sm eh em ∧
      (∀ p ∈ L, p.2 =
        ((vodPartition vod sh sm eh em d).filter
            (fun r => r.group == p.1)).length /
          ((vodPartition vod sh sm eh em d).length : ℚ)) ∧
      (L.map (fun p => p.2)).sum = 1 := by
  obtain ⟨r, hr⟩ := List.exists_mem_of_ne_nil _ hne
  have hrf := List.mem_filter.mp hr
  have hd : d ∈ ((vodTimeFilter vod sh sm eh em).map (fun r => r.is_dark)).dedup := by
    rw [List.mem_dedup, List.mem_map]
    exact ⟨r, hrf.1, by simpa using hrf.2⟩
  refine ⟨_, List.mem_map_of_mem _ hd, ?_, ?_⟩
  · intro p hp
    obtain ⟨g, _, rfl⟩ := List.mem_map.mp hp
    rfl
  · rw [List.map_map]
    exact partition_props_sum_one _ hne

/-- Witness for C5 at a concrete input: the dark partition of the
sample observations between 17:00 and 19:00. -/
theorem vod_rate_partition_proportions_witness :
    ∃ L, (1, L) ∈ calc_vod_rate vodSample 17 0 19 0 ∧
      (∀ p ∈ L, p.2 =
        ((vodPartition vodSample 17 0 19 0 1).filter
            (fun r => r.group == p.1)).length /
          ((vodPartition vodSample 17 0 19 0 1).length : ℚ)) ∧
      (L.map (fun p => p.2)).sum = 1 :=
  vod_rate_partition_proportions vodSample 17 0 19 0 1 (by decide)

/-- C6: if the time-window filter leaves an `is_dark` partition with no
record, `calc_vod_rate` has no row for that partition at all — "no
data" is an absent row, not a row of zeros. -/
theorem vod_rate_empty_partition_no_row (vod : List MRow) (sh : Fin 24)
    (sm : Fin 60) (eh : Fin 24) (em : Fin 60) (d : Nat)
    (h : vodPartition vod sh sm eh em d = []) :
    ∀ L, (d, L) ∉ calc_vod_rate vod sh sm eh em := by
  intro L hL
  obtain ⟨d2, hd2, heq⟩ := List.mem_map.mp hL
  have hdd : d2 = d := by
    have h1 := congrArg Prod.fst heq
    simpa using h1
  subst hdd
  rw [List.mem_dedup, List.mem_map] at hd2
  obtain ⟨r, hrf, hrd⟩ := hd2
  have hmem : r ∈ vodPartition vod sh sm eh em d2 :=
    List.mem_filter.mpr ⟨hrf, by simpa using hrd⟩
  rw [h] at hmem
  cases hmem

/-- Witness for C6 at a concrete input: no sample observation has
`is_dark = 5`, and no output row is keyed by 5. -/
theorem vod_rate_empty_partition_no_row_witness :
    (5, ([] : List (String × ℚ))) ∉ calc_vod_rate vodSample 17 0 19 0 :=
  vod_rate_empty_partition_no_row vodSample 17 0 19 0 5 (by decide) []

/-! ## Claims about the solar time calculator -/

theorem minuteOfDay_le (t : Time) : t.minuteOfDay ≤ 1439 := by
  have h1 := t.hour.isLt
  have h2 := t.minute.isLt
  unfold Time.minuteOfDay
  omega

/-- C7: a non-numeric latitude or longitude (the `float()` coercion
fails) or a timezone identifier not in `pytz.all_timezones` makes
`calc_sunset_times` fail with the invalid-location error; the failure
propagates to the caller and no table from a default location is
returned. -/
theorem sunset_times_invalid_location (allTimezones : List String)
    (sun : ℚ → ℚ → String → String → Time × Time) (stops : List StopRow)
    (lat lon : Option ℚ) (tz : String)
    (h : lat = none ∨ lon = none ∨ allTimezones.contains tz = false) :
    calc_sunset_times allTimezones sun stops lat lon tz =
      Except.error LocError.invalidLocation := by
  unfold calc_sunset_times
  rcases h with h | h | h
  · rw [h]
  · rw [h]
    cases lat <;> rfl
  · cases lat with
    | none => rfl
    | some la =>
      cases lon with
      | none => rfl
      | some lo =>
        have hn : tz ∉ allTimezones := by simpa using h
        simp [hn]

/-- Witness for C7 at a concrete input: a non-numeric latitude. -/
theorem sunset_times_invalid_location_witness :
    calc_sunset_times [] sampleSun [] none none "UTC" =
      Except.error LocError.invalidLocation :=
  sunset_times_invalid_location [] sampleSun [] none none "UTC" (Or.inl rfl)

/-- C8: a successful `calc_sunset_times` call returns exactly one row
per distinct date of the stop records, and each
`sunset_minute`/`dusk_minute` is `hour * 60 + minute` of the
corresponding local sunset/dusk time (seconds truncated, not rounded),
lying in `[0, 1439]`. -/
theorem sunset_times_rows (allTimezones : List String)
    (sun : ℚ → ℚ → String → String → Time × Time) (stops : List StopRow)
    (lat lon : Option ℚ) (tz : String) (t : List SolarRow)
    (h : calc_sunset_times allTimezones sun stops lat lon tz = Except.ok t) :
    (t.map (fun r => r.date)).Nodup ∧
      (∀ d, d ∈ t.map (fun r => r.date) ↔ d ∈ stops.map (fun r => r.date)) ∧
      ∃ la lo, lat = some la ∧ lon = some lo ∧
        ∀ row ∈ t,
          row.sunset = (sun la lo tz row.date).1 ∧
          row.dusk = (sun la lo tz row.date).2 ∧
          row.sunset_minute = ((sun la lo tz row.date).1.minuteOfDay : Int) ∧
          row.dusk_minute = ((sun la lo tz row.date).2.minuteOfDay : Int) ∧
          0 ≤ row.sunset_minute ∧ row.sunset_minute ≤ 1439 ∧
          0 ≤ row.dusk_minute ∧ row.dusk_minute ≤ 1439 := by
  cases lat with
  | none => simp [calc_sunset_times] at h
  | some la =>
    cases lon with
    | none => simp [calc_sunset_times] at h
    | some lo =>
      simp only [calc_sunset_times] at h
      split at h
      · have ht : t = sunsetTable (sun la lo tz) stops := by
          injection h with h2
          exact h2.symm
        subst ht
        have hmap : (sunsetTable (sun la lo tz) stops).map (fun r => r.date) =
            (stops.map (fun r => r.date)).dedup := by
          unfold sunsetTable
          rw [List.map_map]
          exact List.map_id _
        refine ⟨?_, ?_, la, lo, rfl, rfl, ?_⟩
        · rw [hmap]
          exact List.nodup_dedup _
        · intro d
          rw [hmap, List.mem_dedup]
        · intro row hrow
          obtain ⟨dd, hdd, rfl⟩ := List.mem_map.mp hrow
          refine ⟨rfl, rfl, rfl, rfl, ?_, ?_, ?_, ?_⟩
          · exact Int.natCast_nonneg _
          · show (((sun la lo tz dd).1.minuteOfDay : Nat) : Int) ≤ 1439
            exact_mod_cast minuteOfDay_le _
          · exact Int.natCast_nonneg _
          · show (((sun la lo tz dd).2.minuteOfDay : Nat) : Int) ≤ 1439
            exact_mod_cast minuteOfDay_le _
      · simp at h

/-- Witness for C8 at a concrete input: the constant collaborator
`sampleSun` (whose times carry nonzero seconds) over the sample stop
records. -/
theorem sunset_times_rows_witness :
    ((sunsetTable (sampleSun 0 0 "UTC") sampleStops).map
        (fun r => r.date)).Nodup ∧
      (∀ d, d ∈ (sunsetTable (sampleSun 0 0 "UTC") sampleStops).map
          (fun r => r.date) ↔ d ∈ sampleStops.map (fun r => r.date)) ∧
      ∃ la lo, (some (0 : ℚ)) = some la ∧ (some (0 : ℚ)) = some lo ∧
        ∀ row ∈ sunsetTable (sampleSun 0 0 "UTC") sampleStops,
          row.sunset = (sampleSun la lo "UTC" row.date).1 ∧
          row.dusk = (sampleSun la lo "UTC" row.date).2 ∧
          row.sunset_minute = ((sampleSun la lo "UTC" row.date).1.minuteOfDay : Int) ∧
          row.dusk_minute = ((sampleSun la lo "UTC" row.date).2.minuteOfDay : Int) ∧
          0 ≤ row.sunset_minute ∧ row.sunset_minute ≤ 1439 ∧
          0 ≤ row.dusk_minute ∧ row.dusk_minute ≤ 1439 :=
  sunset_times_rows ["UTC"] sampleSun sampleStops (some 0) (some 0) "UTC"
    (sunsetTable (sampleSun 0 0 "UTC") sampleStops) (by rfl)

/-! ## Claim about the hit-rate aggregator -/

/-- C9: `calc_hit_rates` restricts the input to records whose search
indicator equals `True` before grouping: every output entry's rate is
the mean of the contraband indicator over the searched records of its
group, and every output group occurs among the searched records. -/
theorem hit_rates_over_searched (stops : List SRow) (k : List String) (q : ℚ)
    (h : (k, q) ∈ calc_hit_rates stops) :
    hitRateSpec stops k = some q ∧
      ∃ row ∈ stops, row.search = some true ∧ row.key = k := by
  unfold calc_hit_rates at h
  obtain ⟨k2, hk2, hf⟩ := List.mem_filterMap.mp h
  obtain ⟨m, hm, heq⟩ := Option.map_eq_some'.mp hf
  have hkk : k2 = k := congrArg Prod.fst heq
  have hmq : m = q := congrArg Prod.snd heq
  subst hkk
  subst hmq
  constructor
  · have hff : (stops.filter (fun r => r.search == some true)).filter
        (fun r => r.key == k2) =
        stops.filter (fun r => r.search == some true && r.key == k2) := by
      rw [List.filter_filter]
      exact List.filter_congr (fun a _ => Bool.and_comm _ _)
    unfold hitRateSpec
    rw [← hff]
    exact hm
  · rw [List.mem_dedup, List.mem_map] at hk2
    obtain ⟨row, hrow, hkey⟩ := hk2
    have hr2 := List.mem_filter.mp hrow
    exact ⟨row, hr2.1, eq_of_beq hr2.2, hkey⟩

/-- Witness for C9 at a concrete input: group "g" of the sample, whose
only searched record found contraband. -/
theorem hit_rates_over_searched_witness :
    hitRateSpec hitSample ["g"] = some 1 ∧
      ∃ row ∈ hitSample, row.search = some true ∧ row.key = ["g"] :=
  hit_rates_over_searched hitSample ["g"] 1
    (by norm_num [calc_hit_rates, hitSample, meanOpt, meanQ, List.dedup,
      List.filterMap_cons, List.filterMap_nil])

/-! ## Claim about the rate comparator -/

/-- Counterexample to C4 as stated: with the rate table `rateSample`
(group values "white" and "black" only, one index key) and minority
list `["hispanic"]`, `compare_rates` returns the "hispanic" row with a
missing (NaN) rate, not a zero-filled rate 0 — the pivot's zero-fill
cannot create a column for a value that never occurs in the data. -/
theorem compare_rates_absent_not_zero :
    compare_rates 1 rateSample "white" ["hispanic"] ≠ [] ∧
      ∀ row ∈ compare_rates 1 rateSample "white" ["hispanic"],
        row.minority_group = "hispanic" ∧ row.minorityRate = none ∧
          row.minorityRate ≠ some 0 := by
  decide

/-- C4 (amended): for a minority value that never appears in the group
column, `compare_rates` still returns normally, but the value's rows
carry a missing (NaN) rate rather than 0: the pivot's `fill_value=0`
only fills cells of groups observed somewhere in the data, and the
`melt` lookup of the never-observed column produces NaN.  Rows for the
absent value do appear whenever the rate table is non-empty. -/
theorem compare_rates_absent_value_missing (nidx : Nat)
    (rates : List RateRow) (majority : String) (minorities : List String)
    (v : String) (hv : v ∈ minorities)
    (habs : v ∉ rates.map (fun r => r.group)) :
    (∀ row ∈ compare_rates nidx rates majority minorities,
        row.minority_group = v → row.minorityRate = none) ∧
      (rates ≠ [] → ∃ row ∈ compare_rates nidx rates majority minorities,
        row.minority_group = v) := by
  have hnd : v ∉ (rates.map (fun r => r.group)).dedup := by
    rw [List.mem_dedup]
    exact habs
  have hcont : ((rates.map (fun r => r.group)).dedup).contains v = false := by
    cases hcv : ((rates.map (fun r => r.group)).dedup).contains v with
    | false => rfl
    | true => exact absurd (List.elem_iff.mp hcv) hnd
  unfold compare_rates
  by_cases h0 : nidx = 0
  · rw [if_pos h0]
    constructor
    · intro row hrow _
      obtain ⟨v2, hv2, hrow2⟩ := List.mem_flatMap.mp hrow
      obtain ⟨g, hg, rfl⟩ := List.mem_map.mp hrow2
      rfl
    · intro hne
      obtain ⟨r0, hr0⟩ := List.exists_mem_of_ne_nil _ hne
      have hg : r0.group ∈ (rates.map (fun r => r.group)).dedup := by
        rw [List.mem_dedup]
        exact List.mem_map_of_mem _ hr0
      exact ⟨_, List.mem_flatMap.mpr ⟨v, hv, List.mem_map_of_mem _ hg⟩, rfl⟩
  · rw [if_neg h0]
    constructor
    · intro row hrow hrv
      obtain ⟨v2, hv2, hrow2⟩ := List.mem_flatMap.mp hrow
      obtain ⟨kk, hkk, rfl⟩ := List.mem_map.mp hrow2
      have hv2v : v2 = v := hrv
      subst hv2v
      show (if ((rates.map (fun r => r.group)).dedup).contains v2 = true
        then some (cellMean rates kk v2) else none) = none
      rw [hcont]
      rfl
    · intro hne
      obtain ⟨r0, hr0⟩ := List.exists_mem_of_ne_nil _ hne
      have hk : r0.idx ∈ (rates.map (fun r => r.idx)).dedup := by
        rw [List.mem_dedup]
        exact List.mem_map_of_mem _ hr0
      exact ⟨_, List.mem_flatMap.mpr ⟨v, hv, List.mem_map_of_mem _ hk⟩, rfl⟩

/-- Witness for C4 (amended) at a concrete input: minority "hispanic"
is absent from `rateSample`, its output row exists and its rate is
missing. -/
theorem compare_rates_absent_value_missing_witness :
    (∀ row ∈ compare_rates 1 rateSample "white" ["hispanic"],
        row.minority_group = "hispanic" → row.minorityRate = none) ∧
      (rateSample ≠ [] →
        ∃ row ∈ compare_rates 1 rateSample "white" ["hispanic"],
          row.minority_group = "hispanic") :=
  compare_rates_absent_value_missing 1 rateSample "white" ["hispanic"]
    "hispanic" (by decide) (by decide)

end PoliceStops
